import Mathlib

/-!
Verification of the SonoMetric Doppler-ultrasound simulation pipeline.

Shallow embedding of the Python sources:
* `src/utils/config.py`        — numeric configuration constants
* `src/core/velocity_estimation.py` — relative-error computation
* `src/core/beam_angles.py`    — `AngleManager`
* `src/core/laminar_flow.py`   — `VesselPhantom`
* `src/core/rf_generation.py`  — `RFGenerator`
* `src/core/stft_processing.py` — `SpectrogramGenerator`
* `src/core/processing.py`     — `SignalProcessor` (epsilon guard only)

Machine floats are modelled by exact reals (ℝ); exact rationals (ℚ) are used
where the code only performs field arithmetic on plain Python scalars.
Randomness (`np.random.*`) is modelled by passing the drawn values in as
explicit arguments.  Python exceptions are modelled with `Except String`.
-/

namespace SonoMetric

open Real

/-! ## src/utils/config.py -/

noncomputable def TRANSDUCER_FREQ : ℝ := 5e6
noncomputable def SPEED_OF_SOUND : ℝ := 1540
noncomputable def PRF : ℝ := 10000
noncomputable def GATE_DEPTH : ℝ := 0.03
noncomputable def GATE_LENGTH : ℝ := 0.005
noncomputable def GATE_WIDTH : ℝ := 0.002
def MIN_ANGLE : ℚ := -180
def MAX_ANGLE : ℚ := 180
noncomputable def V_MAX_TRUE : ℝ := 0.5
noncomputable def RF_WINDOW_DURATION : ℝ := 0.05
def STFT_WINDOW_SIZE : ℕ := 128
def STFT_OVERLAP : ℚ := 1/2

/-! ## src/core/velocity_estimation.py (the active, uncommented class) -/

namespace velocity_estimation

/-- `calculate_measured_vmax(v_true)`: the theoretical target velocity.
The angle is not consulted: the UI applies angle correction, so the target
is `v_true` itself. -/
def calculate_measured_vmax (v_true : ℚ) : ℚ := v_true

/-- `calculate_relative_error(v_true, v_measured, angle_deg=None)`:
`abs(v_measured - v_theoretical) / v_theoretical * 100`, or `0.0` when the
target is zero.  The `angle_deg` argument is accepted but never read. -/
def calculate_relative_error (v_true v_measured : ℚ) (angle_deg : Option ℚ) : ℚ :=
  let v_theoretical := calculate_measured_vmax v_true
  if v_theoretical = 0 then 0
  else |v_measured - v_theoretical| / v_theoretical * 100

end velocity_estimation

/-! ## src/core/beam_angles.py -/

/-- `AngleManager.AVAILABLE_ANGLES = [30, 60, 75]` (degrees). -/
def AVAILABLE_ANGLES : List ℚ := [30, 60, 75]

structure AngleManager where
  current_angle : ℚ

/-- `AngleManager.__init__`: default angle 60°. -/
def AngleManager.init : AngleManager := ⟨60⟩

/-- `AngleManager.set_angle`: store the angle if it is a member of
`AVAILABLE_ANGLES`, otherwise raise `ValueError` (the object state is left
unmodified — the error branch performs no assignment). -/
def AngleManager.set_angle (m : AngleManager) (angle_deg : ℚ) :
    Except String AngleManager :=
  if angle_deg ∈ AVAILABLE_ANGLES then Except.ok { current_angle := angle_deg }
  else Except.error "Angle must be one of [30, 60, 75]"

/-- `AngleManager.get_angle`. -/
def AngleManager.get_angle (m : AngleManager) : ℚ := m.current_angle

/-! ## src/core/laminar_flow.py -/

structure VesselPhantom where
  radius : ℝ
  length : ℝ
  v_max : ℝ
  center_depth : ℝ
  x : List ℝ
  y : List ℝ
  z_rel : List ℝ
  vx : List ℝ

/-- `VesselPhantom.__init__(radius, length, v_max, num_scatterers,
center_depth)`.  The three `np.random.uniform` draws are passed in
explicitly: `xs ~ U(−length/2, length/2)`, `us ~ U(0, 1)` (so that
`r = radius·sqrt(u)`), `thetas ~ U(0, 2π)`.  The constructor performs no
parameter validation; the only exception Python can raise here is numpy's
`ValueError` when the requested array size `num_scatterers` is negative. -/
noncomputable def VesselPhantom.init (radius length v_max : ℝ)
    (num_scatterers : ℤ) (center_depth : ℝ) (xs us thetas : List ℝ) :
    Except String VesselPhantom :=
  if num_scatterers < 0 then Except.error "negative dimensions are not allowed"
  else
    let r := us.map (fun u => radius * Real.sqrt u)
    let y := (r.zip thetas).map (fun q => q.1 * Real.cos q.2)
    let z_rel := (r.zip thetas).map (fun q => q.1 * Real.sin q.2)
    let r_sq := (y.zip z_rel).map (fun q => q.1 ^ 2 + q.2 ^ 2)
    Except.ok
      { radius := radius, length := length, v_max := v_max,
        center_depth := center_depth, x := xs, y := y, z_rel := z_rel,
        vx := r_sq.map (fun s => v_max * (1 - s / radius ^ 2)) }

/-- One scatterer's step of `VesselPhantom.update(dt)`: `x += vx·dt`, then a
value above `length/2` is shifted down by `length`, then (testing the shifted
value, exactly as the second numpy mask is computed after the first in-place
update) a value below `−length/2` is shifted up by `length`. -/
noncomputable def wrap_step (length dt x vx : ℝ) : ℝ :=
  let x1 := x + vx * dt
  let x2 := if x1 > length / 2 then x1 - length else x1
  if x2 < -length / 2 then x2 + length else x2

/-- `VesselPhantom.update(dt)`: the numpy mask updates act elementwise, so the
whole update is `wrap_step` mapped over the scatterers; `y`, `z_rel` and `vx`
are untouched. -/
noncomputable def VesselPhantom.update (p : VesselPhantom) (dt : ℝ) :
    VesselPhantom :=
  { p with x := (p.x.zip p.vx).map (fun q => wrap_step p.length dt q.1 q.2) }

/-! ## numpy helpers -/

/-- `np.fft.fftfreq(n, d)` with `d = 1/fs`: entry `k` equals `k·fs/n` for
`k < ⌈n/2⌉` and `(k − n)·fs/n` otherwise. -/
noncomputable def fftfreq (n : ℕ) (fs : ℝ) : List ℝ :=
  (List.range n).map (fun k =>
    if k < (n + 1) / 2 then (k : ℝ) * fs / n else ((k : ℝ) - n) * fs / n)

/-- `np.fft.fftshift` on a 1-D array of length `n`: a cyclic roll by `n / 2`
— the last `n − n/2` entries come first. -/
def fftshift {α : Type} (l : List α) : List α :=
  l.drop (l.length - l.length / 2) ++ l.take (l.length - l.length / 2)

/-- `np.hamming(M)`: `0.54 − 0.46·cos(2πk/(M−1))`.  (numpy special-cases
`M = 1` to `[1.0]`; this pipeline only uses `M ≥ 2`.) -/
noncomputable def hamming (M : ℕ) : List ℝ :=
  (List.range M).map (fun k : ℕ =>
    0.54 - 0.46 * Real.cos (2 * π * k / ((M : ℝ) - 1)))

/-- `np.fft.fft`: `X_k = Σ_j x_j · exp(−2πi·j·k/n)`. -/
noncomputable def dft (x : List ℂ) : List ℂ :=
  (List.range x.length).map (fun k =>
    ((List.range x.length).map (fun j =>
      x.getD j 0 * Complex.exp (-2 * (π : ℂ) * Complex.I * (j : ℂ) * (k : ℂ)
        / (x.length : ℂ)))).sum)

/-- Helper for `np.argmax`: fold keeping the first index attaining the
maximum (a later element replaces the incumbent only when strictly larger,
so `np.argmax` reports the first maximal position). -/
noncomputable def argmaxAux : List ℝ → ℕ → ℕ → ℝ → ℕ
  | [], _, besti, _ => besti
  | a :: rest, i, besti, bestv =>
    if bestv < a then argmaxAux rest (i + 1) i a
    else argmaxAux rest (i + 1) besti bestv

/-- `np.argmax` (0 on an empty array; numpy raises there, a case no caller
in this pipeline reaches). -/
noncomputable def argmax : List ℝ → ℕ
  | [] => 0
  | a :: rest => argmaxAux rest 1 0 a

/-! ## src/core/stft_processing.py -/

/-- The epsilon guard of `SpectrogramGenerator.compute_spectrogram`
(src/core/stft_processing.py, lines 44–46): a cosine of magnitude below
`1e-3` is replaced by `1e-3 * np.sign(cos_theta)`, or by `1e-3` when the
cosine is exactly zero. -/
noncomputable def guarded_cos_stft (c : ℝ) : ℝ :=
  if |c| < 1e-3 then (if c = 0 then 1e-3 else 1e-3 * Real.sign c) else c

/-- The epsilon guard of `SignalProcessor.process_frame`
(src/core/processing.py, line 39): keep the cosine if its magnitude exceeds
`1e-4`, else substitute `1e-4`. -/
noncomputable def guarded_cos_processing (c : ℝ) : ℝ :=
  if |c| > 1e-4 then c else 1e-4

structure SpectrogramGenerator where
  doppler_angle : ℝ   -- radians
  f0 : ℝ
  c : ℝ
  fs : ℝ

/-- `SpectrogramGenerator.__init__(doppler_angle_deg)`: `np.radians`
converts to radians; `f0`, `c` come from config and `fs = PRF` (slow-time
baseband simulation). -/
noncomputable def SpectrogramGenerator.init (doppler_angle_deg : ℝ) :
    SpectrogramGenerator :=
  ⟨doppler_angle_deg * π / 180, TRANSDUCER_FREQ, SPEED_OF_SOUND, PRF⟩

/-- The frequency axis of `compute_spectrogram`:
`np.fft.fftshift(np.fft.fftfreq(window_size, 1/self.fs))`. -/
noncomputable def SpectrogramGenerator.freq_axis (g : SpectrogramGenerator)
    (window_size : ℕ) : List ℝ :=
  fftshift (fftfreq window_size g.fs)

/-- The velocity axis of `compute_spectrogram`:
`freqs * c / (2 * f0 * cos_theta)` with the epsilon-guarded cosine. -/
noncomputable def SpectrogramGenerator.velocity_axis
    (g : SpectrogramGenerator) (window_size : ℕ) : List ℝ :=
  (g.freq_axis window_size).map (fun f =>
    f * g.c / (2 * g.f0 * guarded_cos_stft (Real.cos g.doppler_angle)))

structure SpecResult where
  spec_time : List ℝ
  velocities : List ℝ
  spec_power : List (List ℝ)   -- indexed (frequency bin, time segment)

/-- `SpectrogramGenerator.compute_spectrogram(rf_signal, time_axis,
window_size, overlap)`.

`hop_size = int(window_size * (1 - overlap))` and
`n_segments = (len(rf_signal) - window_size) // hop_size + 1` (Python floor
division).  A zero hop raises `ZeroDivisionError`, and a negative
`n_segments` makes `np.zeros((len(freqs), n_segments))` raise `ValueError`;
both are modelled as errors.  The loop then assigns
`spec_time[i] = time_axis[start_idx + window_size // 2]`, which raises
`IndexError` at the first iteration whose index reaches past the end of
`time_axis`; that is modelled by the bounded-existential error branch below
(for a positive hop the `end_idx > len(rf_signal)` break is unreachable, by
the definition of `n_segments`, so the index error is the only run-time
failure the loop can produce).  Otherwise each segment is Hamming-windowed,
FFT'd and `fftshift`ed, and its squared magnitudes
(`np.abs(spectrum)**2 = Complex.normSq`) form one column of `spec_power`
(stored here row-major by frequency bin), and `spec_time[i]` is the
now-guaranteed-in-range `time_axis` entry (written with `getD`). -/
noncomputable def SpectrogramGenerator.compute_spectrogram
    (g : SpectrogramGenerator) (rf_signal : List ℂ) (time_axis : List ℝ)
    (window_size : ℕ) (overlap : ℚ) : Except String SpecResult :=
  let hop_size : ℤ := ⌊(window_size : ℚ) * (1 - overlap)⌋
  if hop_size = 0 then Except.error "integer division or modulo by zero"
  else
    let n_segments : ℤ :=
      ((rf_signal.length : ℤ) - (window_size : ℤ)).fdiv hop_size + 1
    if n_segments < 0 then Except.error "negative dimensions are not allowed"
    else
      let nseg := n_segments.toNat
      let hop := hop_size.toNat
      if ∃ i < nseg, time_axis.length ≤ i * hop + window_size / 2 then
        Except.error "index out of bounds for axis 0"
      else
        let window := hamming window_size
        let segPower : ℕ → List ℝ := fun i =>
          (fftshift (dft (List.zipWith (· * ·)
            ((rf_signal.drop (i * hop)).take window_size)
            (window.map (fun w : ℝ => (w : ℂ)))))).map Complex.normSq
        let spec_power := (List.range window_size).map (fun b =>
          (List.range nseg).map (fun i => (segPower i).getD b 0))
        let spec_time := (List.range nseg).map (fun i =>
          time_axis.getD (i * hop + window_size / 2) 0)
        Except.ok ⟨spec_time, g.velocity_axis window_size, spec_power⟩

/-- `SpectrogramGenerator.estimate_max_velocity(velocities, spec_power)`:
average power across time per velocity bin, then report the velocity of the
(first) largest mean among the strictly positive velocity bins; `0.0` when
no velocity bin is positive. -/
noncomputable def SpectrogramGenerator.estimate_max_velocity
    (velocities : List ℝ) (spec_power : List (List ℝ)) : ℝ :=
  let mean_spectrum := spec_power.map (fun row => row.sum / (row.length : ℝ))
  let pairs := (velocities.zip mean_spectrum).filter (fun q => decide (0 < q.1))
  if pairs.length = 0 then 0
  else (pairs.getD (argmax (pairs.map Prod.snd)) (0, 0)).1

/-! ## src/core/rf_generation.py -/

structure RFGenerator where
  doppler_angle : ℝ   -- radians
  f0 : ℝ
  c : ℝ
  fs : ℝ
  gate_depth : ℝ
  gate_length : ℝ
  gate_width : ℝ
  time : ℝ

/-- `RFGenerator.__init__(doppler_angle_deg)`: angle converted with
`np.radians`; physical constants from config; `fs = PRF`; running session
clock `time = 0.0`. -/
noncomputable def RFGenerator.init (doppler_angle_deg : ℝ) : RFGenerator :=
  ⟨doppler_angle_deg * π / 180, TRANSDUCER_FREQ, SPEED_OF_SOUND, PRF,
   GATE_DEPTH, GATE_LENGTH, GATE_WIDTH, 0⟩

/-- `RFGenerator._scatterers_in_gate(phantom)`: per scatterer,
`in_axial = |(gate_depth + y) - gate_depth| < gate_length/2`,
`in_lateral = |z_rel| < gate_width/2`, `in_elevation = |x| < gate_width/2`,
all three required simultaneously. -/
noncomputable def RFGenerator.scatterers_in_gate (g : RFGenerator)
    (p : VesselPhantom) : List Bool :=
  (p.x.zip (p.y.zip p.z_rel)).map (fun q =>
    let depth_from_surface := g.gate_depth + q.2.1
    decide (|depth_from_surface - g.gate_depth| < g.gate_length / 2)
      && decide (|q.2.2| < g.gate_width / 2)
      && decide (|q.1| < g.gate_width / 2))

/-- numpy boolean-mask selection `arr[in_gate]`. -/
def mask_select (l : List ℝ) (mask : List Bool) : List ℝ :=
  ((l.zip mask).filter (fun q => q.2)).map Prod.fst

/-- `RFGenerator.generate_rf_sample(phantom, duration)`.  The
`np.random.randn` noise draws are passed in as `noise` (one complex pair per
sample, scaled by `noise_power = 0.1` inside, as in the source); the result
is `((rf_signal, time_axis), updated generator)`.

`n_samples = int(duration * fs)`; `time_axis = arange(n_samples)/fs + time`.
When **no** scatterer is in the gate, the function returns early with an
all-zero complex buffer — and because that `return` precedes
`self.time += duration`, the session clock is left unchanged.  Otherwise the
buffer is the normalized sum of complex exponentials plus noise, and the
clock is advanced by `duration`.  (The source also computes `z_gate`, which
is never used afterwards.) -/
noncomputable def RFGenerator.generate_rf_sample (g : RFGenerator)
    (p : VesselPhantom) (duration : ℝ) (noise : List ℂ) :
    (List ℂ × List ℝ) × RFGenerator :=
  let n_samples := (⌊duration * g.fs⌋).toNat
  let time_axis := (List.range n_samples).map (fun k : ℕ => (k : ℝ) / g.fs + g.time)
  let in_gate := g.scatterers_in_gate p
  if in_gate.count true = 0 then
    ((List.replicate n_samples 0, time_axis), g)
  else
    let vx_gate := mask_select p.vx in_gate
    let v_doppler := vx_gate.map (· * Real.cos g.doppler_angle)
    let doppler_shifts := v_doppler.map (fun v => 2 * g.f0 * v / g.c)
    let x_gate := mask_select p.x in_gate
    let y_gate := mask_select p.y in_gate
    let beam_distance := (x_gate.zip y_gate).map (fun q =>
      q.1 * Real.cos g.doppler_angle + q.2 * Real.sin g.doppler_angle)
    let initial_phases := beam_distance.map (fun d =>
      2 * π * g.f0 * 2 * d / g.c)
    let amplitude : ℝ := 1 / Real.sqrt doppler_shifts.length
    let noise_power : ℝ := 0.1
    let rf_signal := List.zipWith (fun t nz =>
      ((doppler_shifts.zip initial_phases).map (fun q =>
        (amplitude : ℂ) * Complex.exp (Complex.I
          * ((2 * π * q.1 * t + q.2 : ℝ) : ℂ)))).sum
      + (noise_power : ℝ) * nz) time_axis noise
    ((rf_signal, time_axis), { g with time := g.time + duration })

/-! ## Shared lemmas -/

lemma fftfreq_length (n : ℕ) (fs : ℝ) : (fftfreq n fs).length = n := by
  simp [fftfreq]

lemma fftshift_length {α : Type} (l : List α) :
    (fftshift l).length = l.length := by
  simp only [fftshift, List.length_append, List.length_drop, List.length_take]
  omega

lemma mem_fftshift {α : Type} {l : List α} {a : α} (h : a ∈ fftshift l) :
    a ∈ l := by
  rcases List.mem_append.mp h with h' | h'
  · exact List.mem_of_mem_drop h'
  · exact List.mem_of_mem_take h'

lemma velocity_axis_length (g : SpectrogramGenerator) (W : ℕ) :
    (g.velocity_axis W).length = W := by
  simp [SpectrogramGenerator.velocity_axis, SpectrogramGenerator.freq_axis,
    fftshift_length, fftfreq_length]

lemma cast_half {n : ℕ} (hn : n % 2 = 0) : ((n / 2 : ℕ) : ℝ) = (n : ℝ) / 2 := by
  obtain ⟨m, rfl⟩ : ∃ m, n = 2 * m := ⟨n / 2, by omega⟩
  rw [Nat.mul_div_cancel_left m (by norm_num)]
  push_cast
  ring

/-- For an even window length, bin `k` of the `fftshift`ed `fftfreq` axis
carries the frequency `(k − n/2)·fs/n`. -/
lemma fftshift_fftfreq_eq (n : ℕ) (fs : ℝ) (hn : n % 2 = 0) :
    fftshift (fftfreq n fs)
      = (List.range n).map (fun k : ℕ => ((k : ℝ) - (n : ℝ) / 2) * fs / n) := by
  have h2 : ((n / 2 : ℕ) : ℝ) = (n : ℝ) / 2 := cast_half hn
  have hceil : (n + 1) / 2 = n / 2 := by omega
  have hsplit : List.range n = List.range' 0 (n / 2) ++ List.range' (n / 2) (n / 2) := by
    rw [List.range_eq_range']
    rw [show List.range' 0 (n / 2) ++ List.range' (n / 2) (n / 2)
        = List.range' 0 (n / 2) ++ List.range' (0 + n / 2) (n / 2) from by rw [Nat.zero_add]]
    rw [List.range'_append_1]
    congr 1
    omega
  rw [fftfreq, fftshift]
  simp only [List.length_map, List.length_range]
  rw [hsplit, List.map_append]
  have hlenP : ((List.range' 0 (n / 2)).map (fun k =>
      if k < (n + 1) / 2 then (k : ℝ) * fs / n else ((k : ℝ) - n) * fs / n)).length
        = n / 2 := by simp
  have hamount : n - n / 2 = n / 2 := by omega
  rw [hamount, List.drop_left' hlenP, List.take_left' hlenP, List.map_append]
  congr 1
  · -- dropped second half comes first: bins k ∈ [n/2, n)
    rw [List.range'_eq_map_range, List.range'_eq_map_range, List.map_map,
      List.map_map]
    apply List.map_congr_left
    intro j hj
    have hjlt : j < n / 2 := List.mem_range.mp hj
    simp only [Function.comp]
    rw [if_neg (by omega)]
    push_cast
    rw [h2]
    ring
  · -- taken first half comes second: bins k ∈ [0, n/2)
    rw [List.range'_eq_map_range, List.range'_eq_map_range, List.map_map,
      List.map_map]
    apply List.map_congr_left
    intro j hj
    have hjlt : j < n / 2 := List.mem_range.mp hj
    simp only [Function.comp]
    rw [if_pos (by omega)]
    push_cast
    rw [h2]
    ring

/-- Normal form of the velocity axis for an even window length. -/
lemma velocity_axis_eq (g : SpectrogramGenerator) (W : ℕ) (hW : W % 2 = 0) :
    g.velocity_axis W
      = (List.range W).map (fun k : ℕ =>
          ((k : ℝ) - (W : ℝ) / 2) * g.fs / W * g.c
            / (2 * g.f0 * guarded_cos_stft (Real.cos g.doppler_angle))) := by
  unfold SpectrogramGenerator.velocity_axis SpectrogramGenerator.freq_axis
  rw [fftshift_fftfreq_eq W g.fs hW, List.map_map]
  rfl

lemma getD_zero_of_forall_zero {M : Type} [Zero M] {l : List M}
    (h : ∀ a ∈ l, a = 0) (k : ℕ) : l.getD k 0 = 0 := by
  rcases lt_or_ge k l.length with hk | hk
  · rw [List.getD_eq_getElem _ _ hk]
    exact h _ (List.getElem_mem hk)
  · exact List.getD_eq_default _ _ hk

lemma zipWith_mul_replicate_zero (m : ℕ) (l : List ℂ) :
    List.zipWith (· * ·) (List.replicate m 0) l
      = List.replicate (min m l.length) 0 := by
  induction m generalizing l with
  | zero => simp
  | succ m ih =>
    cases l with
    | nil => simp
    | cons b t =>
      simp only [List.replicate_succ, List.zipWith_cons_cons, zero_mul,
        List.length_cons, ih, Nat.succ_min_succ]

lemma dft_all_zero {x : List ℂ} (h : ∀ a ∈ x, a = 0) :
    ∀ a ∈ dft x, a = 0 := by
  intro a ha
  unfold dft at ha
  obtain ⟨k, hk, rfl⟩ := List.mem_map.mp ha
  apply List.sum_eq_zero
  intro z hz
  obtain ⟨j, hj, rfl⟩ := List.mem_map.mp hz
  rw [getD_zero_of_forall_zero h, zero_mul]

lemma argmaxAux_of_forall_le {l : List ℝ} {bestv : ℝ}
    (h : ∀ a ∈ l, a ≤ bestv) :
    ∀ i besti, argmaxAux l i besti bestv = besti := by
  induction l with
  | nil => intro i besti; rfl
  | cons a t ih =>
    intro i besti
    unfold argmaxAux
    rw [if_neg (not_lt.mpr (h a (List.mem_cons_self a t)))]
    exact ih (fun b hb => h b (List.mem_cons_of_mem a hb)) (i + 1) besti

lemma argmax_replicate_zero (m : ℕ) : argmax (List.replicate m (0 : ℝ)) = 0 := by
  cases m with
  | zero => rfl
  | succ m =>
    rw [List.replicate_succ]
    unfold argmax
    exact argmaxAux_of_forall_le
      (fun a ha => le_of_eq (List.eq_of_mem_replicate ha)) 1 0

lemma zip_replicate_right {α β : Type} (l : List α) (c : β) :
    l.zip (List.replicate l.length c) = l.map (fun a => (a, c)) := by
  induction l with
  | nil => rfl
  | cons a t ih =>
    simp only [List.length_cons, List.replicate_succ, List.zip_cons_cons, ih,
      List.map_cons]

lemma range_filter_decide_le (n m : ℕ) :
    (List.range n).filter (fun k => decide (m ≤ k)) = List.range' m (n - m) := by
  induction n with
  | zero => simp
  | succ n ih =>
    rw [List.range_succ, List.filter_append, ih]
    by_cases h : m ≤ n
    · rw [List.filter_cons, if_pos (by simpa using h), List.filter_nil,
        show n + 1 - m = (n - m) + 1 from by omega, List.range'_concat,
        show m + 1 * (n - m) = n from by omega]
    · rw [List.filter_cons, if_neg (by simpa using h), List.filter_nil,
        show n - m = 0 from by omega, show n + 1 - m = 0 from by omega]
      simp

/-- `compute_spectrogram` on an all-zero buffer (positive hop, buffer at
least one window long, time axis at least as long as the buffer — as the
pipeline always supplies): returns the velocity axis and an all-zero power
spectrogram whose column count is `(n − W) // hop + 1 ≥ 1`. -/
lemma compute_spectrogram_zero (g : SpectrogramGenerator) (n : ℕ)
    (ta : List ℝ) (W : ℕ) (ov : ℚ) (hhop : 0 < ⌊(W : ℚ) * (1 - ov)⌋)
    (hlen : W ≤ n) (hta : n ≤ ta.length) :
    g.compute_spectrogram (List.replicate n 0) ta W ov
      = Except.ok ⟨(List.range (((n : ℤ) - (W : ℤ)).fdiv ⌊(W : ℚ) * (1 - ov)⌋
            + 1).toNat).map (fun i =>
            ta.getD (i * (⌊(W : ℚ) * (1 - ov)⌋).toNat + W / 2) 0),
          g.velocity_axis W,
          List.replicate W (List.replicate (((n : ℤ) - (W : ℤ)).fdiv
            ⌊(W : ℚ) * (1 - ov)⌋ + 1).toNat (0 : ℝ))⟩ := by
  have hW0 : 0 < W := by
    rcases Nat.eq_zero_or_pos W with h0 | h0
    · rw [h0] at hhop
      norm_num at hhop
    · exact h0
  unfold SpectrogramGenerator.compute_spectrogram
  simp only [List.length_replicate]
  rw [if_neg (by omega : ¬⌊(W : ℚ) * (1 - ov)⌋ = 0)]
  have hfd : 0 ≤ ((n : ℤ) - (W : ℤ)).fdiv ⌊(W : ℚ) * (1 - ov)⌋ :=
    Int.fdiv_nonneg (by omega) (by omega)
  rw [if_neg (not_lt.mpr (by omega))]
  have hnoob : ¬ ∃ i < (((n : ℤ) - (W : ℤ)).fdiv ⌊(W : ℚ) * (1 - ov)⌋
      + 1).toNat, ta.length ≤ i * (⌊(W : ℚ) * (1 - ov)⌋).toNat + W / 2 := by
    rintro ⟨i, hi, hle⟩
    have hfd' : (i : ℤ) ≤ ((n : ℤ) - (W : ℤ)).fdiv ⌊(W : ℚ) * (1 - ov)⌋ := by
      omega
    have hmul : (i : ℤ) * ⌊(W : ℚ) * (1 - ov)⌋ ≤ (n : ℤ) - (W : ℤ) := by
      rw [Int.fdiv_eq_ediv _ (le_of_lt hhop)] at hfd'
      exact (Int.le_ediv_iff_mul_le hhop).mp hfd'
    have hcast : ((i * (⌊(W : ℚ) * (1 - ov)⌋).toNat : ℕ) : ℤ)
        = (i : ℤ) * ⌊(W : ℚ) * (1 - ov)⌋ := by
      push_cast
      rw [Int.toNat_of_nonneg (le_of_lt hhop)]
    omega
  rw [if_neg hnoob]
  congr 2
  rw [show List.replicate (((n : ℤ) - (W : ℤ)).fdiv
        ⌊(W : ℚ) * (1 - ov)⌋ + 1).toNat (0 : ℝ)
      = (List.range (((n : ℤ) - (W : ℤ)).fdiv
          ⌊(W : ℚ) * (1 - ov)⌋ + 1).toNat).map (fun _ => (0 : ℝ)) from by
        simp [List.map_const']]
  rw [show List.replicate W ((List.range (((n : ℤ)
          - (W : ℤ)).fdiv ⌊(W : ℚ) * (1 - ov)⌋ + 1).toNat).map (fun _ => (0 : ℝ)))
      = (List.range W).map (fun _ =>
          (List.range (((n : ℤ) - (W : ℤ)).fdiv
            ⌊(W : ℚ) * (1 - ov)⌋ + 1).toNat).map (fun _ => (0 : ℝ))) from by
        simp [List.map_const']]
  apply List.map_congr_left
  intro b _
  apply List.map_congr_left
  intro i _
  apply getD_zero_of_forall_zero
  intro a ha
  obtain ⟨z, hz, rfl⟩ := List.mem_map.mp ha
  have hall : ∀ a ∈ List.zipWith (· * ·)
      (((List.replicate n (0 : ℂ)).drop
        (i * (⌊(W : ℚ) * (1 - ov)⌋).toNat)).take W)
      ((hamming W).map (fun w : ℝ => (w : ℂ))), a = 0 := by
    rw [List.drop_replicate, List.take_replicate, zipWith_mul_replicate_zero]
    intro a ha
    exact List.eq_of_mem_replicate ha
  rw [dft_all_zero hall z (mem_fftshift hz)]
  simp

/-- `estimate_max_velocity` on the even-length velocity axis paired with an
all-zero power spectrogram: the mean spectrum is identically zero,
`np.argmax` of the all-zero mean picks index 0 of the positive-velocity
bins, and the estimate is the smallest positive velocity
`fs/W · c/(2·f0·guarded cosine)` — not zero. -/
lemma estimate_zero_power (g : SpectrogramGenerator) (W m : ℕ)
    (hW : W % 2 = 0) (h4 : 4 ≤ W)
    (hfs : 0 < g.fs) (hc : 0 < g.c) (hf0 : 0 < g.f0)
    (hcos : 0 < guarded_cos_stft (Real.cos g.doppler_angle)) :
    SpectrogramGenerator.estimate_max_velocity (g.velocity_axis W)
        (List.replicate W (List.replicate m 0))
      = g.fs / W * g.c
          / (2 * g.f0 * guarded_cos_stft (Real.cos g.doppler_angle)) := by
  have hW0 : 0 < W := by omega
  have hs : 0 < g.fs / W * g.c
      / (2 * g.f0 * guarded_cos_stft (Real.cos g.doppler_angle)) := by
    positivity
  have hmean : (List.replicate W (List.replicate m (0 : ℝ))).map
      (fun row => row.sum / (row.length : ℝ)) = List.replicate W 0 := by
    rw [List.map_replicate]
    congr 1
    simp
  have hzip : (g.velocity_axis W).zip (List.replicate W (0 : ℝ))
      = (g.velocity_axis W).map (fun a => (a, (0 : ℝ))) := by
    conv_lhs => rw [show List.replicate W (0 : ℝ)
        = List.replicate (g.velocity_axis W).length (0 : ℝ) from by
          rw [velocity_axis_length]]
    exact zip_replicate_right _ _
  unfold SpectrogramGenerator.estimate_max_velocity
  simp only []
  rw [hmean, hzip, List.filter_map, velocity_axis_eq g W hW, List.filter_map,
    List.map_map]
  rw [List.filter_congr (fun k (hk : k ∈ List.range W) =>
    (by
      simp only [Function.comp_apply]
      apply decide_eq_decide.mpr
      rw [show ((k : ℝ) - (W : ℝ) / 2) * g.fs / W * g.c
            / (2 * g.f0 * guarded_cos_stft (Real.cos g.doppler_angle))
          = ((k : ℝ) - (W : ℝ) / 2) * (g.fs / W * g.c
            / (2 * g.f0 * guarded_cos_stft (Real.cos g.doppler_angle))) from by
            ring]
      rw [mul_pos_iff_of_pos_right hs, sub_pos, ← cast_half hW, Nat.cast_lt]
      omega :
      _ = (fun k => decide (W / 2 + 1 ≤ k)) k))]
  rw [range_filter_decide_le, show W - (W / 2 + 1) = W / 2 - 1 from by omega]
  rw [if_neg (by
    simp only [List.length_map, List.length_range']
    omega)]
  have hsnd : ((List.range' (W / 2 + 1) (W / 2 - 1)).map
      ((fun a : ℝ => (a, (0 : ℝ))) ∘ (fun k : ℕ =>
        ((k : ℝ) - (W : ℝ) / 2) * g.fs / W * g.c
          / (2 * g.f0 * guarded_cos_stft (Real.cos g.doppler_angle))))).map
        Prod.snd
      = List.replicate (W / 2 - 1) (0 : ℝ) := by
    refine List.eq_replicate.mpr ⟨by simp, ?_⟩
    intro b hb
    obtain ⟨q, hq, rfl⟩ := List.mem_map.mp hb
    obtain ⟨k, hk, rfl⟩ := List.mem_map.mp hq
    rfl
  rw [hsnd, argmax_replicate_zero]
  rw [show W / 2 - 1 = (W / 2 - 2) + 1 from by omega, List.range'_succ,
    List.map_cons, List.getD_cons_zero]
  simp only [Function.comp_apply]
  rw [show ((W / 2 + 1 : ℕ) : ℝ) = (W : ℝ) / 2 + 1 from by
    push_cast [cast_half hW]; ring]
  ring

lemma abs_guarded_cos_stft_ge (c : ℝ) : 1e-3 ≤ |guarded_cos_stft c| := by
  unfold guarded_cos_stft
  split_ifs with h1 h2
  · rw [abs_of_nonneg (by norm_num : (0:ℝ) ≤ 1e-3)]
  · rcases lt_trichotomy c 0 with hc | hc | hc
    · rw [Real.sign_of_neg hc, show (1e-3 : ℝ) * (-1) = -(1e-3) from by ring,
        abs_neg, abs_of_nonneg (by norm_num : (0:ℝ) ≤ 1e-3)]
    · exact absurd hc h2
    · rw [Real.sign_of_pos hc, mul_one,
        abs_of_nonneg (by norm_num : (0:ℝ) ≤ 1e-3)]
  · exact not_lt.mp h1

lemma abs_guarded_cos_processing_ge (c : ℝ) :
    1e-4 ≤ |guarded_cos_processing c| := by
  unfold guarded_cos_processing
  split_ifs with h
  · exact le_of_lt h
  · rw [abs_of_nonneg (by norm_num : (0:ℝ) ≤ 1e-4)]

lemma abs_fftfreq_le {n : ℕ} {fs : ℝ} (hfs : 0 ≤ fs) :
    ∀ f ∈ fftfreq n fs, |f| ≤ fs / 2 := by
  intro f hf
  unfold fftfreq at hf
  obtain ⟨k, hk, rfl⟩ := List.mem_map.mp hf
  have hkn : k < n := List.mem_range.mp hk
  have hn0 : 0 < n := by omega
  split_ifs with h
  · have h2k : 2 * k ≤ n := by omega
    rw [abs_of_nonneg (by positivity), div_le_div_iff (by positivity) two_pos]
    have : (2 * k : ℝ) ≤ n := by exact_mod_cast h2k
    nlinarith
  · have h2k : 2 * (n - k) ≤ n := by omega
    have hkc : ((n - k : ℕ) : ℝ) = (n : ℝ) - k := by
      push_cast [Nat.cast_sub (le_of_lt hkn)]
      ring
    have hle : ((k : ℝ) - n) * fs / n ≤ 0 := by
      apply div_nonpos_of_nonpos_of_nonneg _ (by positivity)
      apply mul_nonpos_of_nonpos_of_nonneg _ hfs
      have : (k : ℝ) ≤ n := by exact_mod_cast le_of_lt hkn
      linarith
    rw [abs_of_nonpos hle,
      show -(((k : ℝ) - n) * fs / n) = ((n : ℝ) - k) * fs / n from by ring,
      div_le_div_iff (by positivity) two_pos]
    have : (2 * (n - k) : ℕ) ≤ (n : ℕ) := h2k
    have hcast : 2 * ((n : ℝ) - k) ≤ n := by
      rw [← hkc]
      exact_mod_cast this
    nlinarith

lemma cos_radians_60 : Real.cos ((60 : ℝ) * π / 180) = 1 / 2 := by
  rw [show (60 : ℝ) * π / 180 = π / 3 from by ring]
  exact Real.cos_pi_div_three

lemma guarded_cos_stft_half : guarded_cos_stft (1 / 2) = 1 / 2 := by
  unfold guarded_cos_stft
  rw [if_neg (by rw [abs_of_nonneg (by norm_num : (0:ℝ) ≤ 1/2)]; norm_num)]

/-- The shared out-of-gate single-scatterer phantom: `x = 1` violates the
elevation window `|x| < gate_width/2 = 0.001`, so the gate is empty. -/
lemma gate_eval :
    (RFGenerator.init 60).scatterers_in_gate ⟨1, 2, 1, 0, [1], [0], [0], [1]⟩
      = [false] := by
  unfold RFGenerator.scatterers_in_gate RFGenerator.init
  simp only [List.zip_cons_cons, List.zip_nil_right, List.map_cons,
    List.map_nil]
  rw [decide_eq_false (by norm_num [GATE_WIDTH] :
    ¬(|(1 : ℝ)| < GATE_WIDTH / 2)), Bool.and_false]

/-! ## Claim theorems -/

/-- C1: for every `v_true ≠ 0`, every `v_measured` and every angle argument,
`calculate_relative_error` returns `|v_measured − v_true| / v_true × 100`,
and the theoretical target velocity equals `v_true` unconditionally (the
angle has no effect on the result). -/
theorem C1_relative_error (v_true v_measured : ℚ) (h : v_true ≠ 0)
    (angle_deg : Option ℚ) :
    velocity_estimation.calculate_relative_error v_true v_measured angle_deg
      = |v_measured - v_true| / v_true * 100
    ∧ velocity_estimation.calculate_measured_vmax v_true = v_true := by
  refine ⟨?_, rfl⟩
  unfold velocity_estimation.calculate_relative_error
    velocity_estimation.calculate_measured_vmax
  simp [h]

/-- Witness for C1 at `v_true = 2`, `v_measured = 5`, `angle = 60°`. -/
theorem C1_relative_error_witness :
    velocity_estimation.calculate_relative_error 2 5 (some 60)
      = |(5 : ℚ) - 2| / 2 * 100
    ∧ velocity_estimation.calculate_measured_vmax 2 = 2 :=
  C1_relative_error 2 5 (by norm_num) (some 60)

/-- C6 counterexample: 45° lies within the configured `[MIN_ANGLE, MAX_ANGLE]`
bounds, yet `set_angle` rejects it — the accepted set is the discrete
`AVAILABLE_ANGLES`, not the configured continuous range. -/
theorem C6_counterexample :
    MIN_ANGLE ≤ 45 ∧ (45 : ℚ) ≤ MAX_ANGLE ∧
      AngleManager.set_angle ⟨60⟩ 45
        = Except.error "Angle must be one of [30, 60, 75]" := by
  refine ⟨by norm_num [MIN_ANGLE], by norm_num [MAX_ANGLE], ?_⟩
  rfl

/-- C6 amended: `set_angle` accepts exactly the members of the discrete set
`AVAILABLE_ANGLES = [30, 60, 75]`; an accepted value is afterwards returned
exactly by `get_angle`; any other angle (even one inside the configured
`[MIN_ANGLE, MAX_ANGLE]` bounds) raises `ValueError` and, since the error
branch performs no assignment, leaves the stored angle unchanged. -/
theorem C6_set_angle (m : AngleManager) (a b : ℚ)
    (ha : a ∈ AVAILABLE_ANGLES) (hb : b ∉ AVAILABLE_ANGLES) :
    m.set_angle a = Except.ok ⟨a⟩
    ∧ (AngleManager.mk a).get_angle = a
    ∧ m.set_angle b = Except.error "Angle must be one of [30, 60, 75]" := by
  refine ⟨?_, rfl, ?_⟩
  · unfold AngleManager.set_angle
    simp [ha]
  · unfold AngleManager.set_angle
    simp [hb]

/-- Witness for C6 amended: accepted angle 30, rejected angle 45. -/
theorem C6_set_angle_witness :
    AngleManager.set_angle ⟨60⟩ 30 = Except.ok ⟨30⟩
    ∧ (AngleManager.mk 30).get_angle = 30
    ∧ AngleManager.set_angle ⟨60⟩ 45
        = Except.error "Angle must be one of [30, 60, 75]" :=
  C6_set_angle ⟨60⟩ 30 45 (by decide) (by decide)

/-- C7 counterexample: constructing a field with `radius = −1 ≤ 0` and
`length = −1 ≤ 0` succeeds and produces a field — the constructor contains no
parameter validation, so no `InvalidParameter` is raised. -/
theorem C7_counterexample :
    ((-1 : ℝ) ≤ 0) ∧
    VesselPhantom.init (-1) (-1) 1 1 (3/100) [0] [0] [0]
      = Except.ok ⟨-1, -1, 1, 3/100, [0], [0], [0], [1]⟩ := by
  refine ⟨by norm_num, ?_⟩
  unfold VesselPhantom.init
  norm_num

/-- C7 amended: `VesselPhantom.__init__` performs no parameter validation:
for every radius, length, `v_max` and every scatterer count ≥ 0 (including
non-positive radius/length and count = 0) it returns a field without raising.
The only synchronous failure is numpy's `ValueError` for a negative array
size. -/
theorem C7_init_no_validation (radius length v_max : ℝ) (n : ℤ)
    (center : ℝ) (xs us thetas : List ℝ) (hn : 0 ≤ n) :
    ∃ p, VesselPhantom.init radius length v_max n center xs us thetas
      = Except.ok p := by
  unfold VesselPhantom.init
  rw [if_neg (by omega)]
  exact ⟨_, rfl⟩

/-- Witness for C7 amended at radius = length = −1, count = 0. -/
theorem C7_init_no_validation_witness :
    ∃ p, VesselPhantom.init (-1) (-1) 1 0 (3/100) [] [] []
      = Except.ok p :=
  C7_init_no_validation (-1) (-1) 1 0 (3/100) [] [] [] (by norm_num)

/-- C4: for valid parameters (radius > 0, count ≥ 0) and uniform draws in
their documented ranges (`u ∈ [0,1]`), every generated scatterer's initial
`(y, z)` satisfies `y² + z² ≤ radius²`, and its axial velocity `vx` equals
`v_max · (1 − (y² + z²)/radius²)` exactly, derived once at creation. -/
theorem C4_laminar_profile (radius length v_max center : ℝ) (n : ℤ)
    (xs us thetas : List ℝ) (hn : 0 ≤ n) (hr : 0 < radius)
    (hus : ∀ u ∈ us, 0 ≤ u ∧ u ≤ 1) :
    ∃ p, VesselPhantom.init radius length v_max n center xs us thetas
        = Except.ok p
      ∧ (∀ q ∈ p.y.zip p.z_rel, q.1 ^ 2 + q.2 ^ 2 ≤ radius ^ 2)
      ∧ p.vx = (p.y.zip p.z_rel).map
          (fun q => v_max * (1 - (q.1 ^ 2 + q.2 ^ 2) / radius ^ 2)) := by
  unfold VesselPhantom.init
  rw [if_neg (by omega)]
  refine ⟨_, rfl, ?_, ?_⟩
  · intro q hq
    dsimp only at hq
    simp only [List.zip_map'] at hq
    obtain ⟨a, ha, rfl⟩ := List.mem_map.mp hq
    obtain ⟨a1, a2⟩ := a
    obtain ⟨hr1, -⟩ := List.of_mem_zip ha
    obtain ⟨u, hu, ha1⟩ := List.mem_map.mp hr1
    obtain ⟨hu0, hu1⟩ := hus u hu
    dsimp only
    rw [← ha1]
    have hsqrt : Real.sqrt u ^ 2 = u := Real.sq_sqrt hu0
    have key : (radius * Real.sqrt u * Real.cos a2) ^ 2
        + (radius * Real.sqrt u * Real.sin a2) ^ 2
        = radius ^ 2 * Real.sqrt u ^ 2
          * (Real.sin a2 ^ 2 + Real.cos a2 ^ 2) := by ring
    rw [key, Real.sin_sq_add_cos_sq, hsqrt, mul_one]
    exact mul_le_of_le_one_right (sq_nonneg radius) hu1
  · simp only [List.map_map]
    rfl

/-- Witness for C4 at radius = 1, one scatterer drawn at `u = 1/4`, `θ = 0`. -/
theorem C4_laminar_profile_witness :
    ∃ p, VesselPhantom.init 1 2 1 1 0 [0] [1/4] [0]
        = Except.ok p
      ∧ (∀ q ∈ p.y.zip p.z_rel, q.1 ^ 2 + q.2 ^ 2 ≤ (1 : ℝ) ^ 2)
      ∧ p.vx = (p.y.zip p.z_rel).map
          (fun q => 1 * (1 - (q.1 ^ 2 + q.2 ^ 2) / (1 : ℝ) ^ 2)) :=
  C4_laminar_profile 1 2 1 0 1 [0] [1/4] [0] (by norm_num) (by norm_num)
    (by intro u hu; rw [List.mem_singleton] at hu; subst hu; norm_num)

/-- C3 counterexample: a validly constructed field (radius 1, length 2,
`v_max` 1, one scatterer at the axis centre, so `vx = 1`) advanced with
`dt = 10` ends at `x = 8`, outside `[−length/2, length/2] = [−1, 1]` — the
update wraps at most once, so a displacement larger than `length` escapes the
vessel segment. -/
theorem C3_counterexample :
    VesselPhantom.init 1 2 1 1 0 [0] [0] [0]
      = Except.ok ⟨1, 2, 1, 0, [0], [0], [0], [1]⟩
    ∧ (VesselPhantom.update ⟨1, 2, 1, 0, [0], [0], [0], [1]⟩ 10).x = [8]
    ∧ ¬ ((8 : ℝ) ≤ 2 / 2) := by
  refine ⟨?_, ?_, by norm_num⟩
  · unfold VesselPhantom.init
    norm_num
  · unfold VesselPhantom.update wrap_step
    norm_num

/-- C3 amended: for every `dt > 0` whose per-scatterer displacement satisfies
`|vx·dt| ≤ length`, after `update` every scatterer's `x` stays within
`[−length/2, length/2]`; a scatterer that would exceed `length/2` reappears
at the wrapped position `x + vx·dt − length` with `vx` unchanged; and the
update never modifies `y` or `z_rel` (or `vx`).  Applied tick after tick this
preserves the containment invariant for any number of ticks. -/
theorem C3_update_wraparound (p : VesselPhantom) (dt : ℝ) (hL : 0 < p.length)
    (h : ∀ q ∈ p.x.zip p.vx,
        (-p.length / 2 ≤ q.1 ∧ q.1 ≤ p.length / 2) ∧ |q.2 * dt| ≤ p.length) :
    (p.update dt).x
        = (p.x.zip p.vx).map (fun q => wrap_step p.length dt q.1 q.2)
    ∧ (∀ q ∈ p.x.zip p.vx,
        (-p.length / 2 ≤ wrap_step p.length dt q.1 q.2
          ∧ wrap_step p.length dt q.1 q.2 ≤ p.length / 2)
        ∧ (q.1 + q.2 * dt > p.length / 2 →
            wrap_step p.length dt q.1 q.2 = q.1 + q.2 * dt - p.length))
    ∧ (p.update dt).y = p.y ∧ (p.update dt).z_rel = p.z_rel
    ∧ (p.update dt).vx = p.vx := by
  refine ⟨rfl, ?_, rfl, rfl, rfl⟩
  intro q hq
  obtain ⟨⟨hx1, hx2⟩, hv⟩ := h q hq
  obtain ⟨hv1, hv2⟩ := abs_le.mp hv
  constructor
  · simp only [wrap_step]
    split_ifs with h1 h2 h2 <;> constructor <;> linarith
  · intro hgt
    simp only [wrap_step]
    rw [if_pos hgt, if_neg (by linarith)]

/-- Witness for C3 amended: one scatterer, length 2, `vx = 1`, `dt = 1`. -/
theorem C3_update_wraparound_witness :
    ((⟨1, 2, 1, 0, [0], [0], [0], [1]⟩ : VesselPhantom).update 1).x
        = (([0] : List ℝ).zip [1]).map (fun q => wrap_step 2 1 q.1 q.2)
    ∧ (∀ q ∈ (([0] : List ℝ).zip [1]),
        (-(2 : ℝ) / 2 ≤ wrap_step 2 1 q.1 q.2 ∧ wrap_step 2 1 q.1 q.2 ≤ 2 / 2)
        ∧ (q.1 + q.2 * 1 > 2 / 2 →
            wrap_step 2 1 q.1 q.2 = q.1 + q.2 * 1 - 2))
    ∧ ((⟨1, 2, 1, 0, [0], [0], [0], [1]⟩ : VesselPhantom).update 1).y = [0]
    ∧ ((⟨1, 2, 1, 0, [0], [0], [0], [1]⟩ : VesselPhantom).update 1).z_rel = [0]
    ∧ ((⟨1, 2, 1, 0, [0], [0], [0], [1]⟩ : VesselPhantom).update 1).vx = [1] :=
  C3_update_wraparound ⟨1, 2, 1, 0, [0], [0], [0], [1]⟩ 1 (by norm_num)
    (by
      intro q hq
      simp only [List.zip_cons_cons, List.zip_nil_right, List.mem_singleton] at hq
      subst hq
      norm_num)

/-- C5: for every angle (including angles arbitrarily close to 90°) the
frequency-to-velocity conversion stays finite: both epsilon guards keep the
cosine divisor at magnitude at least their epsilon (1e-3 in the STFT path,
1e-4 in the demodulation path), and consequently every velocity-axis value
of the STFT path is bounded by `(fs/2)·c/(2·f0·1e-3) = 770` m/s in
magnitude — no division blow-up, no infinity. -/
theorem C5_degenerate_angle :
    (∀ c : ℝ, 1e-3 ≤ |guarded_cos_stft c|)
    ∧ (∀ c : ℝ, 1e-4 ≤ |guarded_cos_processing c|)
    ∧ (∀ (angle_deg : ℝ) (W : ℕ),
        ∀ v ∈ (SpectrogramGenerator.init angle_deg).velocity_axis W,
          |v| ≤ 770) := by
  refine ⟨abs_guarded_cos_stft_ge, abs_guarded_cos_processing_ge, ?_⟩
  intro angle_deg W v hv
  unfold SpectrogramGenerator.velocity_axis SpectrogramGenerator.freq_axis at hv
  obtain ⟨f, hf, rfl⟩ := List.mem_map.mp hv
  have hf' : f ∈ fftfreq W (SpectrogramGenerator.init angle_deg).fs :=
    mem_fftshift hf
  have hfs : (SpectrogramGenerator.init angle_deg).fs = PRF := rfl
  have hfb : |f| ≤ PRF / 2 := by
    rw [← hfs]
    exact abs_fftfreq_le (by rw [hfs]; unfold PRF; norm_num) f hf'
  have hg := abs_guarded_cos_stft_ge
    (Real.cos (SpectrogramGenerator.init angle_deg).doppler_angle)
  have hc : (SpectrogramGenerator.init angle_deg).c = SPEED_OF_SOUND := rfl
  have hf0 : (SpectrogramGenerator.init angle_deg).f0 = TRANSDUCER_FREQ := rfl
  rw [abs_div, abs_mul, hc]  -- |f * c| / |2 * f0 * g|
  rw [show |SPEED_OF_SOUND| = SPEED_OF_SOUND from
    abs_of_nonneg (by unfold SPEED_OF_SOUND; norm_num)]
  have hden : (10000 : ℝ) ≤ |2 * (SpectrogramGenerator.init angle_deg).f0
      * guarded_cos_stft
        (Real.cos (SpectrogramGenerator.init angle_deg).doppler_angle)| := by
    rw [abs_mul, abs_mul, hf0]
    rw [show |(2 : ℝ)| = 2 from abs_of_nonneg (by norm_num),
      show |TRANSDUCER_FREQ| = TRANSDUCER_FREQ from
        abs_of_nonneg (by unfold TRANSDUCER_FREQ; norm_num)]
    unfold TRANSDUCER_FREQ
    nlinarith [hg]
  calc |f| * SPEED_OF_SOUND / |2 * (SpectrogramGenerator.init angle_deg).f0
        * guarded_cos_stft
          (Real.cos (SpectrogramGenerator.init angle_deg).doppler_angle)|
      ≤ (PRF / 2) * SPEED_OF_SOUND / 10000 := by
        apply div_le_div (by unfold PRF SPEED_OF_SOUND; norm_num)
          (by
            apply mul_le_mul_of_nonneg_right hfb
            unfold SPEED_OF_SOUND
            norm_num)
          (by norm_num) hden
    _ = 770 := by unfold PRF SPEED_OF_SOUND; norm_num

/-- Witness for C5 at the degenerate angle 90° (cosine exactly zero), with a
one-bin axis whose single velocity value is 0. -/
theorem C5_degenerate_angle_witness :
    |(0 : ℝ)| ≤ 770 :=
  C5_degenerate_angle.2.2 90 1 0
    (by
      unfold SpectrogramGenerator.velocity_axis SpectrogramGenerator.freq_axis
        fftfreq fftshift
      simp [show List.range 1 = [0] from rfl])

/-- C10 counterexample: for the pipeline's even analysis window
(`window_size = 128 = STFT_WINDOW_SIZE`, angle 60°) the velocity axis is
*not* symmetric about zero: its first bin carries −77/50 m/s (the −Nyquist
bin) but +77/50 appears nowhere on the axis. -/
theorem C10_counterexample :
    ((SpectrogramGenerator.init 60).velocity_axis 128).getD 0 0 = -(77 / 50)
    ∧ (77 / 50 : ℝ) ∉ (SpectrogramGenerator.init 60).velocity_axis 128 := by
  have hax : (SpectrogramGenerator.init 60).velocity_axis 128
      = (List.range 128).map (fun k : ℕ => ((k : ℝ) - 64) * (77 / 3200)) := by
    rw [velocity_axis_eq _ _ (by norm_num)]
    apply List.map_congr_left
    intro k hk
    show ((k : ℝ) - (128 : ℝ) / 2) * PRF / 128 * SPEED_OF_SOUND
        / (2 * TRANSDUCER_FREQ * guarded_cos_stft
            (Real.cos ((60 : ℝ) * π / 180)))
      = ((k : ℝ) - 64) * (77 / 3200)
    rw [cos_radians_60, guarded_cos_stft_half]
    unfold PRF SPEED_OF_SOUND TRANSDUCER_FREQ
    ring
  constructor
  · rw [hax, List.getD_eq_getElem _ _ (by simp), List.getElem_map,
      List.getElem_range]
    norm_num
  · intro hmem
    rw [hax] at hmem
    obtain ⟨k, hk, heq⟩ := List.mem_map.mp hmem
    have hklt : k < 128 := List.mem_range.mp hk
    have : (k : ℝ) < 128 := by exact_mod_cast hklt
    linarith [heq]

/-- C10 amended: for every even window length `W > 0` and any angle whose
guarded cosine is positive, the produced velocity axis has exactly `W` bins
(the analysis window length), is strictly increasing (monotonic), and is
symmetric about zero *except for the extreme −Nyquist bin*: bins pair up as
`v[k] = −v[W−k]` for `1 ≤ k < W`, while bin 0 (−Nyquist) has no positive
counterpart, because an even-length `fftshift` axis spans `[−fs/2, fs/2)`. -/
theorem C10_velocity_axis_props (angle_deg : ℝ) (W : ℕ) (hW : W % 2 = 0)
    (hpos : 0 < W)
    (hcos : 0 < guarded_cos_stft (Real.cos ((angle_deg : ℝ) * π / 180))) :
    ((SpectrogramGenerator.init angle_deg).velocity_axis W).length = W
    ∧ (∀ j k : ℕ, j < k → k < W →
        ((SpectrogramGenerator.init angle_deg).velocity_axis W).getD j 0
          < ((SpectrogramGenerator.init angle_deg).velocity_axis W).getD k 0)
    ∧ (∀ k : ℕ, 1 ≤ k → k < W →
        ((SpectrogramGenerator.init angle_deg).velocity_axis W).getD k 0
          = -(((SpectrogramGenerator.init angle_deg).velocity_axis W).getD
              (W - k) 0)) := by
  have hgetD : ∀ k : ℕ, k < W →
      ((SpectrogramGenerator.init angle_deg).velocity_axis W).getD k 0
        = ((k : ℝ) - (W : ℝ) / 2) * PRF / W * SPEED_OF_SOUND
            / (2 * TRANSDUCER_FREQ * guarded_cos_stft
                (Real.cos ((angle_deg : ℝ) * π / 180))) := by
    intro k hk
    rw [velocity_axis_eq _ _ hW, List.getD_eq_getElem _ _ (by simp [hk]),
      List.getElem_map, List.getElem_range]
    rfl
  have hs : 0 < PRF / (W : ℝ) * SPEED_OF_SOUND
      / (2 * TRANSDUCER_FREQ * guarded_cos_stft
          (Real.cos ((angle_deg : ℝ) * π / 180))) := by
    unfold PRF SPEED_OF_SOUND TRANSDUCER_FREQ
    positivity
  refine ⟨velocity_axis_length _ _, ?_, ?_⟩
  · intro j k hjk hkW
    rw [hgetD j (lt_trans hjk hkW), hgetD k hkW]
    rw [show ((j : ℝ) - (W : ℝ) / 2) * PRF / W * SPEED_OF_SOUND
          / (2 * TRANSDUCER_FREQ * guarded_cos_stft
              (Real.cos ((angle_deg : ℝ) * π / 180)))
        = ((j : ℝ) - (W : ℝ) / 2) * (PRF / W * SPEED_OF_SOUND
          / (2 * TRANSDUCER_FREQ * guarded_cos_stft
              (Real.cos ((angle_deg : ℝ) * π / 180)))) from by ring]
    rw [show ((k : ℝ) - (W : ℝ) / 2) * PRF / W * SPEED_OF_SOUND
          / (2 * TRANSDUCER_FREQ * guarded_cos_stft
              (Real.cos ((angle_deg : ℝ) * π / 180)))
        = ((k : ℝ) - (W : ℝ) / 2) * (PRF / W * SPEED_OF_SOUND
          / (2 * TRANSDUCER_FREQ * guarded_cos_stft
              (Real.cos ((angle_deg : ℝ) * π / 180)))) from by ring]
    apply mul_lt_mul_of_pos_right _ hs
    have : (j : ℝ) < k := by exact_mod_cast hjk
    linarith
  · intro k hk1 hkW
    rw [hgetD k hkW, hgetD (W - k) (by omega)]
    rw [Nat.cast_sub (le_of_lt hkW)]
    ring

/-- Witness for C10 amended at angle 60°, window length 2. -/
theorem C10_velocity_axis_props_witness :
    ((SpectrogramGenerator.init 60).velocity_axis 2).length = 2
    ∧ (∀ j k : ℕ, j < k → k < 2 →
        ((SpectrogramGenerator.init 60).velocity_axis 2).getD j 0
          < ((SpectrogramGenerator.init 60).velocity_axis 2).getD k 0)
    ∧ (∀ k : ℕ, 1 ≤ k → k < 2 →
        ((SpectrogramGenerator.init 60).velocity_axis 2).getD k 0
          = -(((SpectrogramGenerator.init 60).velocity_axis 2).getD
              (2 - k) 0)) :=
  C10_velocity_axis_props 60 2 (by norm_num) (by norm_num)
    (by rw [cos_radians_60, guarded_cos_stft_half]; norm_num)

/-- C8: evaluating `compute_spectrogram` at a buffer shorter than
`window_size − hop_size` (here: the empty buffer, window 256, overlap 0.75,
hop 64): `n_segments = (0 − 256) // 64 + 1 = −3` is negative, so
`np.zeros((len(freqs), n_segments))` raises `ValueError: negative dimensions
are not allowed` instead of returning a zero-column spectrogram. -/
theorem C8_short_buffer_raises :
    (SpectrogramGenerator.init 60).compute_spectrogram ([] : List ℂ)
        ([] : List ℝ) 256 (3/4)
      = Except.error "negative dimensions are not allowed" := by
  have h1 : ⌊((256 : ℕ) : ℚ) * (1 - 3/4)⌋ = (64 : ℤ) := by norm_num
  unfold SpectrogramGenerator.compute_spectrogram
  simp only [List.length_nil]
  rw [if_neg (by norm_num)]
  rw [h1]
  rw [show (((0 : ℕ) : ℤ) - ((256 : ℕ) : ℤ)).fdiv 64 + 1 = -3 from by decide]
  rw [if_pos (by norm_num)]

/-- C9 counterexample: a call with zero scatterers in the gate (one
scatterer at `x = 1`, outside the elevation window) returns through the
early-return path *before* `self.time += duration`, so the session clock is
still 0 after the call instead of having advanced by the window duration
1/20 s. -/
theorem C9_counterexample :
    ((RFGenerator.init 60).generate_rf_sample ⟨1, 2, 1, 0, [1], [0], [0], [1]⟩
        (1/20) []).2.time = 0
    ∧ (RFGenerator.init 60).time = 0
    ∧ (0 : ℝ) ≠ 0 + 1/20 := by
  refine ⟨?_, rfl, by norm_num⟩
  unfold RFGenerator.generate_rf_sample
  simp only []
  rw [gate_eval]
  norm_num
  rfl

/-- C9 amended: whenever the requested buffer is non-empty
(`int(duration·fs) ≥ 1`), the returned time axis starts exactly at the
session clock at call entry; the clock then advances by exactly `duration`
*only when at least one scatterer is in the gate* — on an empty-gate call the
early return skips `self.time += duration` and the generator state (clock
included) is returned unchanged. -/
theorem C9_session_clock (g : RFGenerator) (p : VesselPhantom) (duration : ℝ)
    (noise : List ℂ) (hn : 1 ≤ (⌊duration * g.fs⌋).toNat) :
    (g.generate_rf_sample p duration noise).1.2.getD 0 0 = g.time
    ∧ ((g.scatterers_in_gate p).count true = 0 →
        (g.generate_rf_sample p duration noise).2 = g)
    ∧ ((g.scatterers_in_gate p).count true ≠ 0 →
        (g.generate_rf_sample p duration noise).2.time = g.time + duration) := by
  unfold RFGenerator.generate_rf_sample
  simp only []
  by_cases hc : (g.scatterers_in_gate p).count true = 0
  · rw [if_pos hc]
    refine ⟨?_, fun _ => rfl, fun hne => absurd hc hne⟩
    rw [List.getD_eq_getElem _ _
        (by simp only [List.length_map, List.length_range]; omega),
      List.getElem_map, List.getElem_range]
    simp
  · rw [if_neg hc]
    refine ⟨?_, fun h => absurd h hc, fun _ => rfl⟩
    rw [List.getD_eq_getElem _ _
        (by simp only [List.length_map, List.length_range]; omega),
      List.getElem_map, List.getElem_range]
    simp

/-- Witness for C9 amended: the default generator, the out-of-gate
single-scatterer phantom, duration 1/20 s (500 samples). -/
theorem C9_session_clock_witness :
    ((RFGenerator.init 60).generate_rf_sample ⟨1, 2, 1, 0, [1], [0], [0], [1]⟩
        (1/20) []).1.2.getD 0 0 = (RFGenerator.init 60).time
    ∧ (((RFGenerator.init 60).scatterers_in_gate
          ⟨1, 2, 1, 0, [1], [0], [0], [1]⟩).count true = 0 →
        ((RFGenerator.init 60).generate_rf_sample
          ⟨1, 2, 1, 0, [1], [0], [0], [1]⟩ (1/20) []).2 = RFGenerator.init 60)
    ∧ (((RFGenerator.init 60).scatterers_in_gate
          ⟨1, 2, 1, 0, [1], [0], [0], [1]⟩).count true ≠ 0 →
        ((RFGenerator.init 60).generate_rf_sample
          ⟨1, 2, 1, 0, [1], [0], [0], [1]⟩ (1/20) []).2.time
          = (RFGenerator.init 60).time + 1/20) :=
  C9_session_clock (RFGenerator.init 60) ⟨1, 2, 1, 0, [1], [0], [0], [1]⟩
    (1/20) []
    (by
      rw [show (RFGenerator.init 60).fs = PRF from rfl]
      unfold PRF
      rw [show (1/20 : ℝ) * 10000 = ((500 : ℤ) : ℝ) from by norm_num,
        Int.floor_intCast]
      norm_num)

/-- C2 counterexample: with an empty gate the synthesizer does return the
all-zero 500-sample buffer together with its 500-sample time axis, but
running that buffer and that time axis through `compute_spectrogram`
(window 128 = `STFT_WINDOW_SIZE`, overlap 1/2, 60°) and
`estimate_max_velocity` yields `v_measured = 77/3200 ≈ 0.024` m/s — the
smallest positive velocity bin, because `np.argmax` of the all-zero mean
spectrum is 0 — and not `v_measured = 0` as claimed. -/
theorem C2_counterexample :
    ((RFGenerator.init 60).generate_rf_sample ⟨1, 2, 1, 0, [1], [0], [0], [1]⟩
        (1/20) []).1
      = (List.replicate 500 0,
          (List.range 500).map (fun k : ℕ => (k : ℝ) / PRF + 0))
    ∧ (SpectrogramGenerator.init 60).compute_spectrogram
        (List.replicate 500 0)
        ((List.range 500).map (fun k : ℕ => (k : ℝ) / PRF + 0)) 128 (1/2)
      = Except.ok ⟨(List.range 6).map (fun i =>
            ((List.range 500).map (fun k : ℕ => (k : ℝ) / PRF + 0)).getD
              (i * 64 + 64) 0),
          (SpectrogramGenerator.init 60).velocity_axis 128,
          List.replicate 128 (List.replicate 6 0)⟩
    ∧ SpectrogramGenerator.estimate_max_velocity
        ((SpectrogramGenerator.init 60).velocity_axis 128)
        (List.replicate 128 (List.replicate 6 0))
      = 77 / 3200
    ∧ (77 / 3200 : ℝ) ≠ 0 := by
  have hfloor : ⌊((128 : ℕ) : ℚ) * (1 - 1/2)⌋ = (64 : ℤ) := by norm_num
  have hseg : (((500 : ℕ) : ℤ) - ((128 : ℕ) : ℤ)).fdiv
      ⌊((128 : ℕ) : ℚ) * (1 - 1/2)⌋ + 1 = 6 := by rw [hfloor]; decide
  refine ⟨?_, ?_, ?_, by norm_num⟩
  · have hn500 : (⌊(1/20 : ℝ) * (RFGenerator.init 60).fs⌋).toNat = 500 := by
      rw [show (RFGenerator.init 60).fs = PRF from rfl]
      unfold PRF
      rw [show (1/20 : ℝ) * 10000 = ((500 : ℤ) : ℝ) from by norm_num,
        Int.floor_intCast]
      rfl
    unfold RFGenerator.generate_rf_sample
    simp only []
    rw [gate_eval, if_pos (show List.count true [false] = 0 from rfl), hn500]
    rfl
  · have h := compute_spectrogram_zero (SpectrogramGenerator.init 60) 500
      ((List.range 500).map (fun k : ℕ => (k : ℝ) / PRF + 0))
      128 (1/2) (by rw [hfloor]; norm_num) (by norm_num)
      (by simp)
    rw [h, hseg]
    rw [show ((6 : ℤ)).toNat = 6 from rfl]
    rw [show ⌊((128 : ℕ) : ℚ) * (1 - 1/2)⌋.toNat = 64 from by rw [hfloor]; rfl]
  · have h := estimate_zero_power (SpectrogramGenerator.init 60) 128 6
      (by norm_num) (by norm_num)
      (by rw [show (SpectrogramGenerator.init 60).fs = PRF from rfl]; unfold PRF; norm_num)
      (by rw [show (SpectrogramGenerator.init 60).c = SPEED_OF_SOUND from rfl]; unfold SPEED_OF_SOUND; norm_num)
      (by rw [show (SpectrogramGenerator.init 60).f0 = TRANSDUCER_FREQ from rfl]; unfold TRANSDUCER_FREQ; norm_num)
      (by
        rw [show (SpectrogramGenerator.init 60).doppler_angle
            = (60 : ℝ) * π / 180 from rfl, cos_radians_60, guarded_cos_stft_half]
        norm_num)
    rw [h]
    rw [show (SpectrogramGenerator.init 60).fs = PRF from rfl,
      show (SpectrogramGenerator.init 60).c = SPEED_OF_SOUND from rfl,
      show (SpectrogramGenerator.init 60).f0 = TRANSDUCER_FREQ from rfl,
      show (SpectrogramGenerator.init 60).doppler_angle
          = (60 : ℝ) * π / 180 from rfl,
      cos_radians_60, guarded_cos_stft_half]
    unfold PRF SPEED_OF_SOUND TRANSDUCER_FREQ
    norm_num

/-- C2 amended: a window with zero scatterers inside the gate yields an
all-zero complex buffer of the requested `int(duration·fs)` samples with a
matching time axis; running such a zero buffer (with a time axis at least
as long as the buffer, which the pipeline always supplies) through the
spectral path produces an all-zero power spectrogram, but the
velocity-estimation step then returns the *smallest positive velocity bin*
`fs/W · c/(2·f0·guarded cosine)` (strictly positive), not `v_measured = 0`:
`np.argmax` over the all-zero mean spectrum picks the first positive bin. -/
theorem C2_empty_gate (g : RFGenerator) (p : VesselPhantom) (duration : ℝ)
    (noise : List ℂ) (ta : List ℝ) (angle_deg : ℝ) (W n : ℕ) (overlap : ℚ)
    (hgate : (g.scatterers_in_gate p).count true = 0)
    (hn : n = (⌊duration * g.fs⌋).toNat)
    (hW : W % 2 = 0) (h4 : 4 ≤ W)
    (hhop : 0 < ⌊(W : ℚ) * (1 - overlap)⌋) (hlen : W ≤ n)
    (hta : n ≤ ta.length)
    (hcos : 0 < guarded_cos_stft (Real.cos ((angle_deg : ℝ) * π / 180))) :
    (g.generate_rf_sample p duration noise).1.1 = List.replicate n 0
    ∧ (g.generate_rf_sample p duration noise).1.2.length = n
    ∧ (SpectrogramGenerator.init angle_deg).compute_spectrogram
        (List.replicate n 0) ta W overlap
      = Except.ok ⟨(List.range (((n : ℤ) - (W : ℤ)).fdiv
            ⌊(W : ℚ) * (1 - overlap)⌋ + 1).toNat).map (fun i =>
            ta.getD (i * (⌊(W : ℚ) * (1 - overlap)⌋).toNat + W / 2) 0),
          (SpectrogramGenerator.init angle_deg).velocity_axis W,
          List.replicate W (List.replicate (((n : ℤ) - (W : ℤ)).fdiv
            ⌊(W : ℚ) * (1 - overlap)⌋ + 1).toNat (0 : ℝ))⟩
    ∧ (∀ m : ℕ, SpectrogramGenerator.estimate_max_velocity
        ((SpectrogramGenerator.init angle_deg).velocity_axis W)
        (List.replicate W (List.replicate m 0))
      = PRF / W * SPEED_OF_SOUND
          / (2 * TRANSDUCER_FREQ * guarded_cos_stft
              (Real.cos ((angle_deg : ℝ) * π / 180))))
    ∧ 0 < PRF / W * SPEED_OF_SOUND
        / (2 * TRANSDUCER_FREQ * guarded_cos_stft
            (Real.cos ((angle_deg : ℝ) * π / 180))) := by
  have hW0 : 0 < W := by omega
  refine ⟨?_, ?_, ?_, ?_, ?_⟩
  · unfold RFGenerator.generate_rf_sample
    simp only []
    rw [if_pos hgate, hn]
  · unfold RFGenerator.generate_rf_sample
    simp only []
    rw [if_pos hgate, hn]
    simp
  · exact compute_spectrogram_zero _ n ta W overlap hhop hlen hta
  · intro m
    exact estimate_zero_power (SpectrogramGenerator.init angle_deg) W m hW h4
      (by rw [show (SpectrogramGenerator.init angle_deg).fs = PRF from rfl]
          unfold PRF; norm_num)
      (by rw [show (SpectrogramGenerator.init angle_deg).c = SPEED_OF_SOUND from rfl]
          unfold SPEED_OF_SOUND; norm_num)
      (by rw [show (SpectrogramGenerator.init angle_deg).f0 = TRANSDUCER_FREQ from rfl]
          unfold TRANSDUCER_FREQ; norm_num)
      hcos
  · unfold PRF SPEED_OF_SOUND TRANSDUCER_FREQ
    positivity

/-- Witness for C2 amended at the pipeline configuration: out-of-gate
phantom, duration 1/20 s (500 samples), the generator's own 500-sample time
axis, window 128, overlap 1/2, 60°. -/
theorem C2_empty_gate_witness :
    ((RFGenerator.init 60).generate_rf_sample ⟨1, 2, 1, 0, [1], [0], [0], [1]⟩
        (1/20) []).1.1 = List.replicate 500 0
    ∧ ((RFGenerator.init 60).generate_rf_sample ⟨1, 2, 1, 0, [1], [0], [0], [1]⟩
        (1/20) []).1.2.length = 500
    ∧ (SpectrogramGenerator.init 60).compute_spectrogram
        (List.replicate 500 0)
        ((List.range 500).map (fun k : ℕ => (k : ℝ) / PRF + 0)) 128 (1/2)
      = Except.ok ⟨(List.range ((((500 : ℕ) : ℤ) - ((128 : ℕ) : ℤ)).fdiv
            ⌊((128 : ℕ) : ℚ) * (1 - 1/2)⌋ + 1).toNat).map (fun i =>
            ((List.range 500).map (fun k : ℕ => (k : ℝ) / PRF + 0)).getD
              (i * (⌊((128 : ℕ) : ℚ) * (1 - 1/2)⌋).toNat + 128 / 2) 0),
          (SpectrogramGenerator.init 60).velocity_axis 128,
          List.replicate 128 (List.replicate ((((500 : ℕ) : ℤ)
            - ((128 : ℕ) : ℤ)).fdiv ⌊((128 : ℕ) : ℚ) * (1 - 1/2)⌋ + 1).toNat
            (0 : ℝ))⟩
    ∧ (∀ m : ℕ, SpectrogramGenerator.estimate_max_velocity
        ((SpectrogramGenerator.init 60).velocity_axis 128)
        (List.replicate 128 (List.replicate m 0))
      = PRF / 128 * SPEED_OF_SOUND
          / (2 * TRANSDUCER_FREQ * guarded_cos_stft
              (Real.cos ((60 : ℝ) * π / 180))))
    ∧ 0 < PRF / 128 * SPEED_OF_SOUND
        / (2 * TRANSDUCER_FREQ * guarded_cos_stft
            (Real.cos ((60 : ℝ) * π / 180))) :=
  C2_empty_gate (RFGenerator.init 60) ⟨1, 2, 1, 0, [1], [0], [0], [1]⟩
    (1/20) [] ((List.range 500).map (fun k : ℕ => (k : ℝ) / PRF + 0))
    60 128 500 (1/2)
    (by rw [gate_eval]; rfl)
    (by
      rw [show (RFGenerator.init 60).fs = PRF from rfl]
      unfold PRF
      rw [show (1/20 : ℝ) * 10000 = ((500 : ℤ) : ℝ) from by norm_num,
        Int.floor_intCast]
      rfl)
    (by norm_num) (by norm_num) (by norm_num) (by norm_num)
    (by simp)
    (by rw [cos_radians_60, guarded_cos_stft_half]; norm_num)

end SonoMetric
